import Mathlib

/-!
Verification development for the `pubg.py` Telegram giveaway bot.

This file gives a shallow embedding, in Lean 4, of the pure state-transforming
core of `src/pubg.py`: the subscription (membership) check, the referral user
store (`add_user`), the competition store with its join / admin-edit /
finalization operations (`join_competition`, `save_comment_and_join`,
`admin_update_*`, `finish_competition`, `check_expired_competitions`), and the
competition-creation wizard (`process_comp_image` .. `process_comp_winners_count`).

Modelling conventions:
* JSON stores (`users.json`, `competitions.json`) become association lists
  `List (String × α)` with first-binding lookup; Python dict insertion appends,
  update replaces the first binding in place.
* External Telegram sends (messages, photos, caption edits) are recorded as
  events or reply values; delivery failures that the code merely logs are not
  modelled since they do not alter the persisted state.
* `datetime` values are abstracted to an integer timeline: a deadline is an
  `Int`, `datetime.strptime` for the wizard becomes an abstract parameter
  `pd : String → Option Int`, and `fromisoformat` on a stored deadline is the
  identity (stored deadlines are always produced by the wizard, so parsing
  succeeds).
* `random.sample` is abstracted to a parameter `sample`; the property that the
  Python primitive guarantees (a draw of the requested size without
  replacement) is captured by the predicate `ValidSample`.
-/

namespace PubgBot

/-- Association-list lookup: value of the first binding of key `k`, mirroring a
Python dict read. -/
def lookupA {α : Type} (l : List (String × α)) (k : String) : Option α :=
  match l with
  | [] => none
  | (k2, v) :: rest => if k2 = k then some v else lookupA rest k

/-- Association-list write: replace the first binding of `k`, or append a new
binding, mirroring a Python dict assignment `d[k] = v`. -/
def setA {α : Type} (l : List (String × α)) (k : String) (v : α) : List (String × α) :=
  match l with
  | [] => [(k, v)]
  | (k2, v2) :: rest => if k2 = k then (k2, v) :: rest else (k2, v2) :: setA rest k v

/-! ## Membership Oracle (`check_subscription`, pubg.py lines 76-88)

`bot.get_chat_member` either returns a member record with a status string or
raises (transport error, unknown user, any platform exception).  A query result
is therefore `Option ChatMemberStatus`, `none` covering every raising outcome.
The Telegram Bot API encodes the chat owner with the status string
`"creator"`. -/

/-- Chat member status strings returned by the platform. -/
inductive ChatMemberStatus
  | member
  | administrator
  | creator
  | restricted
  | leftChat
  | kicked
deriving DecidableEq, Repr

/-- The status whitelist of `check_subscription`:
`["member", "administrator", "creator"]`. -/
def statusAllowed (s : ChatMemberStatus) : Bool :=
  match s with
  | .member => true
  | .administrator => true
  | .creator => true
  | _ => false

/-- `check_subscription` (pubg.py lines 76-88): true only if both
`get_chat_member` calls succeed and both statuses are whitelisted; any
exception in either call yields `false`. -/
def check_subscription (channelQ groupQ : Option ChatMemberStatus) : Bool :=
  match channelQ, groupQ with
  | some c, some g => statusAllowed c && statusAllowed g
  | _, _ => false

/-! ## Referral user store (`add_user`, pubg.py lines 216-229) -/

/-- One record of `users.json`. -/
structure UserRec where
  uc : Nat
  ref : Option String
  refs : List String
  joined : String
deriving DecidableEq, Repr

/-- The `users.json` store. -/
def Users : Type := List (String × UserRec)

/-- `add_user` (pubg.py lines 216-229).  If `uid` is absent, a fresh record is
inserted first; only then is the referrer's existence tested (`str(ref_id) in
users` runs against the dict that already holds the new user), and on success
the referrer's `refs` gains `uid` and their `uc` gains 3.  A second call with
an existing `uid` does nothing.  `today` abstracts `datetime.date.today()`. -/
def add_user (today : String) (us : Users) (user_id : String) (ref_id : Option String) :
    Users :=
  if (lookupA us user_id).isSome then us
  else
    let us1 := setA us user_id { uc := 0, ref := ref_id, refs := [], joined := today }
    match ref_id with
    | none => us1
    | some r =>
      match lookupA us1 r with
      | none => us1
      | some rrec => setA us1 r { rrec with refs := rrec.refs ++ [user_id], uc := rrec.uc + 3 }

/-- Python `str.strip()`: drop whitespace from both ends.  Written over the
character list so that it evaluates inside the kernel. -/
def stripText (s : String) : String :=
  String.mk ((s.data.dropWhile Char.isWhitespace).reverse.dropWhile Char.isWhitespace).reverse

/-- Accumulate the value of a digit string; `none` on the first non-digit. -/
def digitsVal (acc : Nat) : List Char → Option Nat
  | [] => some acc
  | c :: rest => if c.isDigit then digitsVal (acc * 10 + (c.toNat - 48)) rest else none

/-- Python `int(s)` restricted to plain digit strings (sign and underscore
forms are abstracted away; every input exercised here is plain digits). -/
def parseNat (s : String) : Option Nat :=
  if s.data.isEmpty then none else digitsVal 0 s.data

/-- Split a character stream on whitespace runs, accumulating the current
word reversed. -/
def splitWordsAux : List Char → List Char → List String
  | [], [] => []
  | [], acc => [String.mk acc.reverse]
  | c :: rest, acc =>
    if c.isWhitespace then
      (match acc with
       | [] => splitWordsAux rest []
       | _ => String.mk acc.reverse :: splitWordsAux rest [])
    else splitWordsAux rest (c :: acc)

/-- Python `text.split()`: split on whitespace runs, dropping empty pieces. -/
def splitWords (s : String) : List String :=
  splitWordsAux s.data []

/-- Referral-argument extraction of the `/start` handler (pubg.py lines
951-956): `parts = message.text.split()`, and `parts[1]` if present. -/
def startRefArg (text : String) : Option String :=
  match splitWords text with
  | _ :: arg :: _ => some arg
  | _ => none

/-! ## Competition store (`competitions.json`) -/

/-- One entry of a competition's `participants` list:
`{"id": "...", "comment": "..."}`. -/
structure Participant where
  id : String
  comment : String
deriving DecidableEq, Repr

/-- The dual-purpose `winners` field: the requested winner count before
finalization, overwritten with the winning id list at finalization
(pubg.py line 935). -/
inductive WinnersField
  | count (n : Nat)
  | ids (l : List String)
deriving DecidableEq, Repr

/-- A stored message handle: `{"chat_id": ..., "message_id": ...}`.  A failed
post stores an empty dict, modelled as a `none` value in `message_info`. -/
structure MsgRef where
  chat_id : String
  message_id : Nat
deriving DecidableEq, Repr

/-- One record of `competitions.json` (pubg.py lines 571-579). -/
structure Comp where
  file_id : String
  deadline : Int
  winners : WinnersField
  participants : List Participant
  caption : String
  winners_announced : Bool
  message_info : List (String × Option MsgRef)
deriving DecidableEq, Repr

/-- The `competitions.json` store. -/
def Comps : Type := List (String × Comp)

/-- External surfaces a broadcast goes to. -/
inductive Surface
  | channel
  | group
deriving DecidableEq, Repr

/-- Outbound messages emitted by finalization, in send order. -/
inductive Event
  | broadcastNoParticipants (s : Surface) (comp_id : String)
  | broadcastWinners (s : Surface) (comp_id : String) (winner_ids : List String)
  | dmWinner (uid : String) (comp_id : String)
  | notifyAdmin (admin_id : Nat) (comp_id : String)
deriving DecidableEq, Repr

/-- `ADMIN_IDS` (pubg.py line 40). -/
def ADMIN_IDS : List Nat := [6322816106, 6072785933]

/-- User-visible replies of the join and subscription flows. -/
inductive Reply
  | notFound
  | alreadyJoined
  | askComment
  | joinedNoComment
  | joinedOk
  | subscribePrompt
  | subConfirmedMenu
  | subRetryPrompt
deriving DecidableEq, Repr

/-! ## Join flow (`join_competition` lines 622-655, `save_comment_and_join`
lines 657-680) -/

/-- `join_competition` (pubg.py lines 622-655), the `join_<id>` callback after
the subscription guard has passed.  `dmOk` is whether the private
comment-request message could be delivered: on success the handler only
registers `save_comment_and_join` as the next step (reply `askComment`, store
untouched); on failure the fallback directly appends the participant with an
empty comment.  Note no branch consults `winners_announced`. -/
def join_competition (comps : Comps) (uid : String) (comp_id : String) (dmOk : Bool) :
    Comps × Reply :=
  match lookupA comps comp_id with
  | none => (comps, .notFound)
  | some c =>
    if c.participants.any (fun p => p.id = uid) then (comps, .alreadyJoined)
    else if dmOk then (comps, .askComment)
    else (setA comps comp_id { c with participants := c.participants ++ [⟨uid, ""⟩] },
          .joinedNoComment)

/-- `save_comment_and_join` (pubg.py lines 657-680): strips the comment text
("-" means empty), re-checks membership of the participant list, then appends.
Note no branch consults `winners_announced`. -/
def save_comment_and_join (comps : Comps) (uid : String) (rawComment : String)
    (comp_id : String) : Comps × Reply :=
  let comment := if stripText rawComment = "-" then "" else stripText rawComment
  match lookupA comps comp_id with
  | none => (comps, .notFound)
  | some c =>
    if c.participants.any (fun p => p.id = uid) then (comps, .alreadyJoined)
    else (setA comps comp_id { c with participants := c.participants ++ [⟨uid, comment⟩] },
          .joinedOk)

/-- The subscription guard around the `join_<id>` callback
(`subscription_guard_callback`, pubg.py lines 147-171): an unsubscribed user
gets an alert plus the subscription prompt and the handler never runs; nothing
is recorded anywhere. -/
def join_callback (subscribed : Bool) (comps : Comps) (uid : String) (comp_id : String)
    (dmOk : Bool) : Comps × Reply :=
  if subscribed then join_competition comps uid comp_id dmOk
  else (comps, .subscribePrompt)

/-- `check_sub_callback` (pubg.py lines 113-120): re-checks the subscription
and replies with either the confirmation plus main menu or a retry prompt.
It reads and writes no store. -/
def check_sub_callback (subscribed : Bool) : Reply :=
  if subscribed then .subConfirmedMenu else .subRetryPrompt

/-! ## Admin edits (pubg.py lines 761-841) -/

/-- Python `int(text.strip())` followed by the `winners <= 0` rejection
(pubg.py lines 557-560, 824-827).  Sign and underscore forms accepted by
Python's `int` are abstracted away; every input exercised here is plain
digits. -/
def parsePosInt (s : String) : Option Nat :=
  match parseNat (stripText s) with
  | some n => if 0 < n then some n else none
  | none => none

/-- `admin_update_image` (pubg.py lines 761-788), success path: the new photo's
file id replaces `file_id`.  A non-photo input re-prompts the same step without
touching the store; the media edits on the posted messages are external
sends. -/
def admin_update_image (comps : Comps) (comp_id : String) (file_id : String) : Comps :=
  match lookupA comps comp_id with
  | none => comps
  | some c => setA comps comp_id { c with file_id := file_id }

/-- `admin_update_caption` (pubg.py lines 790-803): stores the stripped text,
"-" meaning empty. -/
def admin_update_caption (comps : Comps) (comp_id : String) (rawText : String) : Comps :=
  let caption := if stripText rawText = "-" then "" else stripText rawText
  match lookupA comps comp_id with
  | none => comps
  | some c => setA comps comp_id { c with caption := caption }

/-- `admin_update_deadline` (pubg.py lines 805-821), success path with the
parsed date `d`; a malformed date re-prompts the same step without touching the
store. -/
def admin_update_deadline (comps : Comps) (comp_id : String) (d : Int) : Comps :=
  match lookupA comps comp_id with
  | none => comps
  | some c => setA comps comp_id { c with deadline := d }

/-- `admin_update_winners_count` (pubg.py lines 823-841): parses a positive
integer (invalid input re-prompts the same step, store untouched) and
overwrites the `winners` field with it — even when that field currently holds
the winner id list of a finalized competition. -/
def admin_update_winners_count (comps : Comps) (comp_id : String) (text : String) : Comps :=
  match parsePosInt text with
  | none => comps
  | some w =>
    match lookupA comps comp_id with
    | none => comps
    | some c => setA comps comp_id { c with winners := .count w }

/-! ## Finalization (`finish_competition`, pubg.py lines 855-945) and the
maintenance sweep (`check_expired_competitions` lines 844-853,
`competition_checker_thread` lines 966-973) -/

/-- A draw function standing for `random.sample`. -/
def Sampler : Type := List Participant → Nat → List Participant

/-- What Python's `random.sample(l, k)` guarantees for `k ≤ len(l)`: the result
is `k` elements drawn at distinct positions of `l`, in some order — i.e. a
permutation of a length-`k` sublist of `l`. -/
def ValidSample (sample : Sampler) : Prop :=
  ∀ (l : List Participant) (k : Nat), k ≤ l.length →
    ∃ sub : List Participant, sub.Sublist l ∧ (sample l k).Perm sub ∧ sub.length = k

/-- The per-record core of `finish_competition` (pubg.py lines 855-945).
Branches, in source order:
* already announced: immediate return, nothing sent or saved;
* no participants: broadcast the notice to group then channel, set the flag,
  save — `winners` is left as it was;
* otherwise `winners` must be the requested count (after announcement it is a
  list, but that state is unreachable here thanks to the guard; were it
  reached, Python's `min(list, int)` would raise before any send or save, so
  that arm returns the record unchanged with no events);
* main path: draw `min(count, len(participants))` winners, broadcast to group
  then channel, DM each winner, overwrite `winners` with the id list, set the
  flag, save, then notify each admin. -/
def finish_comp (sample : Sampler) (comp_id : String) (c : Comp) : Comp × List Event :=
  if c.winners_announced then (c, [])
  else if c.participants.isEmpty then
    ({ c with winners_announced := true },
     [.broadcastNoParticipants .group comp_id, .broadcastNoParticipants .channel comp_id])
  else
    match c.winners with
    | .ids _ => (c, [])
    | .count n =>
      let k := min n c.participants.length
      let ws := sample c.participants k
      let wids := ws.map (fun p => p.id)
      ({ c with winners := .ids wids, winners_announced := true },
       [.broadcastWinners .group comp_id wids, .broadcastWinners .channel comp_id wids]
         ++ wids.map (fun w => .dmWinner w comp_id)
         ++ ADMIN_IDS.map (fun a => .notifyAdmin a comp_id))

/-- `finish_competition` (pubg.py lines 855-945) at store level: loads the
record, runs the core, writes the result back.  On the no-op branches the core
returns the record unchanged, and writing back an unchanged record equals the
Python early return that skips `save_json`. -/
def finish_competition (sample : Sampler) (comps : Comps) (comp_id : String) :
    Comps × List Event :=
  match lookupA comps comp_id with
  | none => (comps, [])
  | some c =>
    let r := finish_comp sample comp_id c
    (setA comps comp_id r.1, r.2)

/-- The loop body of `check_expired_competitions` (pubg.py lines 844-853):
walk the snapshot `list(competitions.items())`; for each record whose deadline
has passed and which is not yet announced, run `finish_competition` against the
current store.  `fromisoformat` on a stored deadline always succeeds (see the
header), so the per-item exception handler never fires here. -/
def sweepGo (sample : Sampler) (now : Int) (items : List (String × Comp))
    (st : Comps × List Event) : Comps × List Event :=
  match items with
  | [] => st
  | kc :: rest =>
    let st2 :=
      if now ≥ kc.2.deadline ∧ kc.2.winners_announced = false then
        let r := finish_competition sample st.1 kc.1
        (r.1, st.2 ++ r.2)
      else st
    sweepGo sample now rest st2

/-- `check_expired_competitions` (pubg.py lines 844-853): one tick of the
maintenance loop `competition_checker_thread` (lines 966-973).  It performs
only the deadline sweep; no other maintenance work exists in the source. -/
def check_expired_competitions (sample : Sampler) (now : Int) (comps : Comps) :
    Comps × List Event :=
  sweepGo sample now comps (comps, [])

/-! ## Competition-creation wizard (pubg.py lines 491-583)

Each handler is one wizard step; "the wizard is in state `s`" means the handler
for `s` is currently registered via `safe_register_next_step_handler`.  A step
returns the store, the next registered state (`none` = no handler registered,
the wizard is over or abandoned), and the replies sent. -/

/-- Wizard states, each carrying the fields collected so far. -/
inductive WizState
  | collectingImage
  | collectingCaption (file_id : String)
  | collectingDeadline (file_id : String) (caption : String)
  | collectingWinnerCount (file_id : String) (caption : String) (deadline : Int)
deriving DecidableEq, Repr

/-- An admin input to a wizard step: a photo message or a text message.  A
photo message has `message.text = None`. -/
inductive WizInput
  | photo (file_id : String)
  | text (s : String)
deriving DecidableEq, Repr

/-- Replies a wizard step sends. -/
inductive WizMsg
  | askCaption
  | askImageAgain
  | askDeadline
  | badDeadline
  | askCount
  | badCount
  | created (comp_id : String)
deriving DecidableEq, Repr

/-- One wizard step (`process_comp_image` lines 526-534, `process_comp_caption`
lines 536-543, `process_comp_deadline` lines 545-554,
`process_comp_winners_count` lines 556-583).  `pd` abstracts
`datetime.strptime(s.strip(), "%Y-%m-%d %H:%M")`, returning `none` on a
malformed date.  Faithfulness notes, per arm:
* image step: a non-photo message re-prompts and re-registers the same step;
* caption step on a photo: `message.text.strip()` raises an uncaught
  `AttributeError`, so no next step is registered — the wizard dies;
* deadline step: a parse failure (including the `AttributeError` from a photo
  input, caught by the bare `except`) re-prompts and re-registers the same
  step;
* winner-count step: on a valid count the competition is created under id
  `str(len(competitions) + 1)` and posted (`post_competition` only performs
  external sends plus the `message_info` write and is not replayed here); on an
  invalid count (`ValueError`) the handler sends the re-prompt but does NOT
  re-register itself, so the wizard is abandoned; a photo input raises an
  uncaught `AttributeError` — no reply, no registration. -/
def wizStep (pd : String → Option Int) (comps : Comps) (st : WizState) (inp : WizInput) :
    Comps × Option WizState × List WizMsg :=
  match st, inp with
  | .collectingImage, .photo fid => (comps, some (.collectingCaption fid), [.askCaption])
  | .collectingImage, .text _ => (comps, some .collectingImage, [.askImageAgain])
  | .collectingCaption fid, .text s =>
    let caption := if stripText s = "-" then "" else stripText s
    (comps, some (.collectingDeadline fid caption), [.askDeadline])
  | .collectingCaption _, .photo _ => (comps, none, [])
  | .collectingDeadline fid cap, .text s =>
    match pd (stripText s) with
    | some d => (comps, some (.collectingWinnerCount fid cap d), [.askCount])
    | none => (comps, some (.collectingDeadline fid cap), [.badDeadline])
  | .collectingDeadline fid cap, .photo _ =>
    (comps, some (.collectingDeadline fid cap), [.badDeadline])
  | .collectingWinnerCount fid cap d, .text s =>
    (match parsePosInt s with
     | some w =>
       let comp_id := toString (comps.length + 1)
       (setA comps comp_id
          { file_id := fid, deadline := d, winners := .count w, participants := [],
            caption := cap, winners_announced := false, message_info := [] },
        none, [.created comp_id])
     | none => (comps, none, [.badCount]))
  | .collectingWinnerCount _ _ _, .photo _ => (comps, none, [])

/-! ## Sequences of participant-list mutations -/

/-- A user-driven participant-list mutation: a `join_<id>` callback press
(with its DM-delivery outcome) or a `save_comment_and_join` next-step
message. -/
inductive JoinOp
  | callback (comp_id uid : String) (dmOk : Bool)
  | comment (comp_id uid raw : String)
deriving DecidableEq, Repr

/-- Apply one join operation to the store, discarding the reply. -/
def applyJoinOp (comps : Comps) (op : JoinOp) : Comps :=
  match op with
  | .callback comp_id uid dmOk => (join_competition comps uid comp_id dmOk).1
  | .comment comp_id uid raw => (save_comment_and_join comps uid raw comp_id).1

/-- Apply a sequence of join operations in order. -/
def applyJoinOps (comps : Comps) (ops : List JoinOp) : Comps :=
  ops.foldl applyJoinOp comps

/-- Every competition's participant list is duplicate-free in user ids. -/
def NodupIds (comps : Comps) : Prop :=
  ∀ id c, lookupA comps id = some c → (c.participants.map Participant.id).Nodup

/-! ## Concrete instances used in closed statements -/

/-- A deterministic draw standing in for `random.sample` in closed statements:
take the first `k` participants (a permutation of a length-`k` sublist, hence a
valid sample). -/
def sampleTake : Sampler := fun l k => l.take k

/-- An already-finalized competition with one participant and a recorded
winner. -/
def compDone : Comp :=
  { file_id := "f", deadline := 0, winners := .ids ["A"],
    participants := [{ id := "A", comment := "" }], caption := "",
    winners_announced := true, message_info := [] }

/-- An open competition past nothing, with no participants and two requested
winners. -/
def compEmpty : Comp :=
  { file_id := "f", deadline := 0, winners := .count 2, participants := [],
    caption := "", winners_announced := false, message_info := [] }

/-- An open competition with two participants and one requested winner. -/
def compTwo : Comp :=
  { file_id := "f", deadline := 0, winners := .count 1,
    participants := [{ id := "A", comment := "" }, { id := "B", comment := "" }],
    caption := "", winners_announced := false, message_info := [] }

/-- An open competition with one participant whose deadline (100) lies in the
future of the tick instants used below. -/
def compOpenA : Comp :=
  { file_id := "f", deadline := 100, winners := .count 1,
    participants := [{ id := "A", comment := "" }], caption := "",
    winners_announced := false, message_info := [] }

/-- An open competition with no participants, used as the target of a blocked
join attempt. -/
def compJoinable : Comp :=
  { file_id := "f", deadline := 100, winners := .count 1, participants := [],
    caption := "", winners_announced := false, message_info := [] }

/-! ## Helper lemmas -/

theorem lookupA_setA_self {α : Type} (l : List (String × α)) (k : String) (v : α) :
    lookupA (setA l k v) k = some v := by
  induction l with
  | nil => simp [setA, lookupA]
  | cons hd tl ih =>
    by_cases h : hd.1 = k
    · simp [setA, lookupA, h]
    · simp [setA, lookupA, h, ih]

theorem lookupA_setA_other {α : Type} (l : List (String × α)) (k k2 : String) (v : α)
    (h : k ≠ k2) : lookupA (setA l k v) k2 = lookupA l k2 := by
  induction l with
  | nil => simp [setA, lookupA, h]
  | cons hd tl ih =>
    by_cases h2 : hd.1 = k
    · simp [setA, lookupA, h2, h]
    · simp [setA, lookupA, h2, ih]

theorem setA_lookupA_eq {α : Type} (l : List (String × α)) (k : String) (v : α)
    (h : lookupA l k = some v) : setA l k v = l := by
  induction l with
  | nil => simp [lookupA] at h
  | cons hd tl ih =>
    cases hd with
    | mk a b =>
      by_cases h2 : a = k
      · simp [lookupA, h2] at h
        simp [setA, h2, h]
      · simp [lookupA, h2] at h
        simp [setA, h2, ih h]

/-- A user present after `add_user` ran for them. -/
theorem add_user_mem (today : String) (us : Users) (uid : String) (ref : Option String) :
    (lookupA (add_user today us uid ref) uid).isSome := by
  by_cases h : (lookupA us uid).isSome
  · simp [add_user, h]
  · simp only [add_user, h, if_false]
    cases ref with
    | none => simp [lookupA_setA_self]
    | some r =>
      cases hr : lookupA (setA us uid { uc := 0, ref := some r, refs := [], joined := today }) r with
      | none => simp [hr, lookupA_setA_self]
      | some rrec =>
        by_cases hru : r = uid
        · subst hru
          simp [hr, lookupA_setA_self]
        · simp [hr, lookupA_setA_other _ _ _ _ hru, lookupA_setA_self]

/-- C6: `check_subscription` is true exactly when both platform queries
succeed with a standing among member, administrator and owner (wire status
`"creator"`), and any raising query (transport error, unknown user, platform
exception) on either chat yields false — fail-closed, never fail-open. -/
theorem check_subscription_fail_closed (cq gq : Option ChatMemberStatus) :
    (check_subscription cq gq = true ↔
      ∃ c g, cq = some c ∧ gq = some g ∧
        (c = .member ∨ c = .administrator ∨ c = .creator) ∧
        (g = .member ∨ g = .administrator ∨ g = .creator)) ∧
    ((cq = none ∨ gq = none) → check_subscription cq gq = false) := by
  constructor
  · cases cq with
    | none => simp [check_subscription]
    | some c =>
      cases gq with
      | none => simp [check_subscription]
      | some g => cases c <;> cases g <;> simp [check_subscription, statusAllowed]
  · rintro (rfl | rfl)
    · simp [check_subscription]
    · cases cq <;> simp [check_subscription]

/-- Witness for `check_subscription_fail_closed`: a failed channel query is
fail-closed even with a good group standing. -/
theorem check_subscription_fail_closed_witness :
    check_subscription none (some .member) = false :=
  (check_subscription_fail_closed none (some .member)).2 (Or.inl rfl)

/-- C9: `add_user` creates a user at most once — a repeated call, or a call for
an already present id, leaves the store unchanged — and the +3 referral credit
together with the `refs` append is applied to the referrer exactly once, at
creation, when the referrer exists at that moment; an absent referrer gets
nothing, and every other existing record is untouched. -/
theorem add_user_spec (today : String) (us : Users) (uid : String) (ref : Option String) :
    (add_user today (add_user today us uid ref) uid ref = add_user today us uid ref) ∧
    ((lookupA us uid).isSome → add_user today us uid ref = us) ∧
    (∀ r rrec, lookupA us uid = none → ref = some r → r ≠ uid → lookupA us r = some rrec →
      lookupA (add_user today us uid ref) r
        = some { rrec with refs := rrec.refs ++ [uid], uc := rrec.uc + 3 }) ∧
    (∀ r, lookupA us uid = none → ref = some r → r ≠ uid → lookupA us r = none →
      lookupA (add_user today us uid ref) r = none) ∧
    (∀ v vrec, v ≠ uid → ref ≠ some v → lookupA us v = some vrec →
      lookupA (add_user today us uid ref) v = some vrec) := by
  have hstop : ∀ X : Users, (lookupA X uid).isSome → add_user today X uid ref = X := by
    intro X hX
    simp [add_user, hX]
  refine ⟨hstop _ (add_user_mem today us uid ref), hstop us, ?_, ?_, ?_⟩
  · intro r rrec hfresh href hru hr
    subst href
    have h1 : lookupA (setA us uid { uc := 0, ref := some r, refs := [], joined := today }) r
        = some rrec := by
      rw [lookupA_setA_other _ _ _ _ (fun h => hru h.symm)]
      exact hr
    simp [add_user, hfresh, h1, lookupA_setA_self]
  · intro r hfresh href hru hr
    subst href
    have h1 : lookupA (setA us uid { uc := 0, ref := some r, refs := [], joined := today }) r
        = none := by
      rw [lookupA_setA_other _ _ _ _ (fun h => hru h.symm)]
      exact hr
    simp [add_user, hfresh, h1]
  · intro v vrec hvu hvr hv
    by_cases h : (lookupA us uid).isSome
    · simp [add_user, h, hv]
    · have hfresh : lookupA us uid = none := by
        cases h2 : lookupA us uid <;> simp [h2] at h ⊢
      have h1 : lookupA (setA us uid { uc := 0, ref := ref, refs := [], joined := today }) v
          = some vrec := by
        rw [lookupA_setA_other _ _ _ _ (fun h3 => hvu h3.symm)]
        exact hv
      cases ref with
      | none => simp [add_user, hfresh, h1]
      | some r =>
        have hrv : r ≠ v := fun h3 => hvr (by rw [h3])
        cases hr : lookupA (setA us uid { uc := 0, ref := some r, refs := [], joined := today }) r with
        | none => simp [add_user, hfresh, hr, h1]
        | some rrec =>
          simp [add_user, hfresh, hr, lookupA_setA_other _ _ _ _ hrv, h1]

/-- Witness for `add_user_spec`: with referrer "1" present, creating "2" with
`ref_id = "1"` credits "1" with 3 UC and appends "2" to their `refs`. -/
theorem add_user_spec_witness :
    lookupA (add_user "d" [("1", { uc := 0, ref := none, refs := [], joined := "d" })]
        "2" (some "1")) "1"
      = some { uc := 3, ref := none, refs := ["2"], joined := "d" } :=
  (add_user_spec "d" [("1", { uc := 0, ref := none, refs := [], joined := "d" })]
      "2" (some "1")).2.2.1 "1" { uc := 0, ref := none, refs := [], joined := "d" }
    rfl rfl (by decide) rfl

/-- C10: self-referral is possible.  `/start 7` sent by the not-yet-registered
user 7 carries their own id as referral argument; `add_user` inserts the new
record before the referrer-existence check, which therefore matches the
just-created record, so user 7 is granted the +3 credit and appended to their
own `refs` list. -/
theorem add_user_self_referral :
    startRefArg "/start 7" = some "7" ∧
    add_user "2026-10-12" [] "7" (some "7")
      = [("7", { uc := 3, ref := some "7", refs := ["7"], joined := "2026-10-12" })] := by
  constructor
  · rfl
  · rfl

/-- An already-announced record is returned untouched with no sends. -/
theorem finish_comp_announced (sample : Sampler) (comp_id : String) (c : Comp)
    (h : c.winners_announced = true) : finish_comp sample comp_id c = (c, []) := by
  simp [finish_comp, h]

/-- Running the finalization core twice changes nothing further and sends
nothing further. -/
theorem finish_comp_idem (sample : Sampler) (comp_id : String) (c : Comp) :
    finish_comp sample comp_id (finish_comp sample comp_id c).1
      = ((finish_comp sample comp_id c).1, []) := by
  by_cases hann : c.winners_announced
  · simp [finish_comp, hann]
  · by_cases hp : c.participants.isEmpty
    · simp [finish_comp, hann, hp]
    · cases hw : c.winners with
      | ids l => simp [finish_comp, hann, hp, hw]
      | count n => simp [finish_comp, hann, hp, hw]

/-- Finalization never touches the participant list. -/
theorem finish_comp_participants (sample : Sampler) (comp_id : String) (c : Comp) :
    (finish_comp sample comp_id c).1.participants = c.participants := by
  by_cases hann : c.winners_announced
  · simp [finish_comp, hann]
  · by_cases hp : c.participants.isEmpty
    · simp [finish_comp, hann, hp]
    · cases hw : c.winners with
      | ids l => simp [finish_comp, hann, hp, hw]
      | count n => simp [finish_comp, hann, hp, hw]

/-- Finalization either leaves the record alone or flips `winners_announced`
from false to true; no other transition exists. -/
theorem finish_comp_transition (sample : Sampler) (comp_id : String) (c : Comp) :
    (finish_comp sample comp_id c).1 = c ∨
      (c.winners_announced = false ∧ (finish_comp sample comp_id c).1.winners_announced = true) := by
  by_cases hann : c.winners_announced
  · simp [finish_comp, hann]
  · by_cases hp : c.participants.isEmpty
    · right
      simp [finish_comp, hann, hp]
    · cases hw : c.winners with
      | ids l => simp [finish_comp, hann, hp, hw]
      | count n =>
        right
        simp [finish_comp, hann, hp, hw]

/-- C1: `finish_competition` is idempotent.  A call on an already-Finalized
competition returns the store unchanged and sends nothing; a second call right
after a first one likewise changes no persisted state and produces no further
announcement, DM or admin notification; and the only transition a call can
make on the stored record is the flag flip Open (`winners_announced = false`)
to Finalized (`winners_announced = true`). -/
theorem finish_competition_idempotent (sample : Sampler) (comps : Comps) (comp_id : String) :
    (∀ c, lookupA comps comp_id = some c → c.winners_announced = true →
      finish_competition sample comps comp_id = (comps, [])) ∧
    (finish_competition sample (finish_competition sample comps comp_id).1 comp_id
      = ((finish_competition sample comps comp_id).1, [])) ∧
    (∀ c c', lookupA comps comp_id = some c →
      lookupA (finish_competition sample comps comp_id).1 comp_id = some c' →
      c' = c ∨ (c.winners_announced = false ∧ c'.winners_announced = true)) := by
  refine ⟨?_, ?_, ?_⟩
  · intro c hc hann
    simp [finish_competition, hc, finish_comp_announced sample comp_id c hann,
      setA_lookupA_eq comps comp_id c hc]
  · cases hc : lookupA comps comp_id with
    | none => simp [finish_competition, hc]
    | some c =>
      have hl : lookupA (setA comps comp_id (finish_comp sample comp_id c).1) comp_id
          = some (finish_comp sample comp_id c).1 := lookupA_setA_self comps comp_id _
      simp [finish_competition, hc, hl, finish_comp_idem sample comp_id c,
        setA_lookupA_eq _ comp_id _ hl]
  · intro c c' hc hc'
    simp only [finish_competition, hc] at hc'
    rw [lookupA_setA_self] at hc'
    cases hc'
    exact finish_comp_transition sample comp_id c

/-- Witness for `finish_competition_idempotent`: a finalized competition is
left untouched and silent. -/
theorem finish_competition_idempotent_witness :
    finish_competition sampleTake [("1", compDone)] "1" = ([("1", compDone)], []) :=
  (finish_competition_idempotent sampleTake [("1", compDone)] "1").1 compDone rfl rfl

/-- Taking a prefix is a valid draw-without-replacement. -/
theorem sampleTake_valid : ValidSample sampleTake := by
  intro l k hk
  refine ⟨l.take k, List.take_sublist k l, List.Perm.refl _, ?_⟩
  simpa [List.length_take] using Nat.min_eq_left hk

/-- C3 counterexample: finalizing a competition with zero participants leaves
the stored `winners` value as the requested count (here 2) — it is never
overwritten with a length-0 winner list — while the flag is set and the
no-participants notice goes to both surfaces. -/
theorem finish_empty_keeps_count :
    (finish_comp sampleTake "1" compEmpty).1.winners = .count 2 ∧
    (finish_comp sampleTake "1" compEmpty).1.winners ≠ .ids [] ∧
    (finish_comp sampleTake "1" compEmpty).2
      = [.broadcastNoParticipants .group "1", .broadcastNoParticipants .channel "1"] ∧
    (finish_comp sampleTake "1" compEmpty).1.winners_announced = true := by
  exact ⟨rfl, by decide, rfl, rfl⟩

/-- C3 amended: for a not-yet-finalized competition with at least one
participant, finalization stores a winner list of length
`min(requestedWinnerCount, len(participants))` drawn from the participant list
without replacement; with zero participants, the `winners` field is left
unchanged as the requested count (no winner list of any length is stored), the
flag is set, and the no-participants notice is broadcast to both surfaces. -/
theorem finish_winner_count_spec (sample : Sampler) (comp_id : String) (c : Comp) (n : Nat)
    (hs : ValidSample sample) (hann : c.winners_announced = false)
    (hw : c.winners = .count n) :
    (c.participants ≠ [] →
      ∃ ws : List Participant,
        (finish_comp sample comp_id c).1.winners = .ids (ws.map Participant.id) ∧
        ws.length = min n c.participants.length ∧
        (∀ p ∈ ws, p ∈ c.participants) ∧
        ∃ sub : List Participant, sub.Sublist c.participants ∧ ws.Perm sub) ∧
    (c.participants = [] →
      (finish_comp sample comp_id c).1.winners = .count n ∧
      (finish_comp sample comp_id c).1.winners_announced = true ∧
      (finish_comp sample comp_id c).2
        = [.broadcastNoParticipants .group comp_id,
           .broadcastNoParticipants .channel comp_id]) := by
  constructor
  · intro hp
    have hpe : c.participants.isEmpty = false := by
      cases hcp : c.participants with
      | nil => exact absurd hcp hp
      | cons a t => rfl
    obtain ⟨sub, hsub, hperm, hlen⟩ :=
      hs c.participants (min n c.participants.length) (Nat.min_le_right _ _)
    refine ⟨sample c.participants (min n c.participants.length), ?_, ?_, ?_, sub, hsub, hperm⟩
    · simp [finish_comp, hann, hpe, hw]
    · rw [hperm.length_eq, hlen]
    · intro p hpmem
      exact hsub.subset (hperm.mem_iff.mp hpmem)
  · intro hp
    have hpe : c.participants.isEmpty = true := by simp [hp]
    refine ⟨?_, ?_, ?_⟩ <;> simp [finish_comp, hann, hpe, hw]

/-- Witness for `finish_winner_count_spec`: one winner drawn from a
two-participant competition. -/
theorem finish_winner_count_spec_witness :
    ∃ ws : List Participant,
      (finish_comp sampleTake "1" compTwo).1.winners = .ids (ws.map Participant.id) ∧
      ws.length = min 1 compTwo.participants.length ∧
      (∀ p ∈ ws, p ∈ compTwo.participants) ∧
      ∃ sub : List Participant, sub.Sublist compTwo.participants ∧ ws.Perm sub :=
  (finish_winner_count_spec sampleTake "1" compTwo 1 sampleTake_valid rfl rfl).1 (by decide)

/-- A `finish_competition` call never changes any competition's participant
list. -/
theorem finish_competition_preserves_participants (sample : Sampler) (comps : Comps)
    (cid id : String) (c' : Comp)
    (h : lookupA (finish_competition sample comps cid).1 id = some c') :
    ∃ c, lookupA comps id = some c ∧ c'.participants = c.participants := by
  cases hc : lookupA comps cid with
  | none =>
    simp only [finish_competition, hc] at h
    exact ⟨c', h, rfl⟩
  | some c =>
    simp only [finish_competition, hc] at h
    by_cases hid : cid = id
    · subst hid
      rw [lookupA_setA_self] at h
      cases h
      exact ⟨c, hc, finish_comp_participants sample cid c⟩
    · rw [lookupA_setA_other _ _ _ _ hid] at h
      exact ⟨c', h, rfl⟩

/-- The deadline sweep never changes any competition's participant list. -/
theorem sweepGo_preserves_participants (sample : Sampler) (now : Int)
    (items : List (String × Comp)) (st : Comps × List Event) (id : String) (c' : Comp)
    (h : lookupA (sweepGo sample now items st).1 id = some c') :
    ∃ c, lookupA st.1 id = some c ∧ c'.participants = c.participants := by
  induction items generalizing st with
  | nil => exact ⟨c', h, rfl⟩
  | cons kc rest ih =>
    simp only [sweepGo] at h
    by_cases hcond : now ≥ kc.2.deadline ∧ kc.2.winners_announced = false
    · rw [if_pos hcond] at h
      obtain ⟨c2, h2, hp2⟩ := ih _ h
      obtain ⟨c3, h3, hp3⟩ :=
        finish_competition_preserves_participants sample st.1 kc.1 id c2 h2
      exact ⟨c3, h3, hp2.trans hp3⟩
    · rw [if_neg hcond] at h
      exact ih _ h

/-- C2 counterexample: one maintenance tick on a store holding a non-finalized
competition with participant "A" evicts nobody and emits nothing — the tick
never consults the Membership Oracle (no oracle input even exists in
`check_expired_competitions`), so an always-erroring oracle cannot make it
evict anyone. -/
theorem maintenance_tick_no_eviction :
    check_expired_competitions sampleTake 0 [("1", compOpenA)] = ([("1", compOpenA)], []) ∧
    (lookupA (check_expired_competitions sampleTake 0 [("1", compOpenA)]).1 "1").map
        Comp.participants = some [{ id := "A", comment := "" }] :=
  ⟨rfl, rfl⟩

/-- C2 amended: a maintenance tick performs only the deadline sweep
(finalizing non-finalized competitions past deadline); it re-invokes no
membership oracle and evicts no participant — every competition's participant
list is exactly what it was before the tick. -/
theorem maintenance_tick_preserves_participants (sample : Sampler) (now : Int)
    (comps : Comps) (comp_id : String) (c c' : Comp)
    (hc : lookupA comps comp_id = some c)
    (hc' : lookupA (check_expired_competitions sample now comps).1 comp_id = some c') :
    c'.participants = c.participants := by
  obtain ⟨c2, h2, hp⟩ :=
    sweepGo_preserves_participants sample now comps (comps, []) comp_id c' hc'
  rw [hc] at h2
  cases h2
  exact hp

/-- Witness for `maintenance_tick_preserves_participants` at a concrete store
and tick instant. -/
theorem maintenance_tick_preserves_participants_witness :
    compOpenA.participants = compOpenA.participants :=
  maintenance_tick_preserves_participants sampleTake 0 [("1", compOpenA)] "1"
    compOpenA compOpenA rfl rfl

/-- C4 counterexample: on a finalized competition (`winners_announced = true`,
winner list `["A"]` recorded), `save_comment_and_join` by the new user "B"
still grows the participant list, and `admin_update_winners_count` overwrites
the recorded winner list with a fresh requested count — neither operation
consults the finalized flag. -/
theorem finalized_not_immutable :
    compDone.winners_announced = true ∧
    (lookupA (save_comment_and_join [("1", compDone)] "B" "hi" "1").1 "1").map
        Comp.participants
      = some [{ id := "A", comment := "" }, { id := "B", comment := "hi" }] ∧
    (lookupA (admin_update_winners_count [("1", compDone)] "1" "5") "1").map Comp.winners
      = some (.count 5) :=
  ⟨rfl, rfl, rfl⟩

/-- C4 amended: finalization is not enforced against later operations — the
join paths can still append participants and the admin winners-count edit
overwrites the winner outcome even when `winners_announced` is true (see the
counterexample); only the caption, deadline and image edits leave both the
participant list and the `winners` field of every competition unchanged. -/
theorem admin_edits_preserve_outcome (comps : Comps) (comp_id : String)
    (fid rawCaption : String) (d : Int) :
    ((lookupA (admin_update_image comps comp_id fid) comp_id).map Comp.participants
        = (lookupA comps comp_id).map Comp.participants ∧
      (lookupA (admin_update_image comps comp_id fid) comp_id).map Comp.winners
        = (lookupA comps comp_id).map Comp.winners) ∧
    ((lookupA (admin_update_caption comps comp_id rawCaption) comp_id).map Comp.participants
        = (lookupA comps comp_id).map Comp.participants ∧
      (lookupA (admin_update_caption comps comp_id rawCaption) comp_id).map Comp.winners
        = (lookupA comps comp_id).map Comp.winners) ∧
    ((lookupA (admin_update_deadline comps comp_id d) comp_id).map Comp.participants
        = (lookupA comps comp_id).map Comp.participants ∧
      (lookupA (admin_update_deadline comps comp_id d) comp_id).map Comp.winners
        = (lookupA comps comp_id).map Comp.winners) := by
  refine ⟨⟨?_, ?_⟩, ⟨?_, ?_⟩, ⟨?_, ?_⟩⟩ <;>
    cases hc : lookupA comps comp_id <;>
      simp [admin_update_image, admin_update_caption, admin_update_deadline, hc,
        lookupA_setA_self]

/-- C5 counterexample: user "B", ineligible, presses join on competition "3":
the guard only replies with the subscription prompt and the store is unchanged
— no pending join context is recorded anywhere (none exists in the source).
The later `check_sub` confirmation, with "B" now eligible, only replies with
the confirmation main menu; it takes no competition store at all, so "B" is
never added to competition "3", whose participant list is still empty. -/
theorem no_pending_join_context :
    join_callback false [("3", compJoinable)] "B" "3" true
      = ([("3", compJoinable)], .subscribePrompt) ∧
    check_sub_callback true = .subConfirmedMenu ∧
    (lookupA [("3", compJoinable)] "3").map Comp.participants = some [] :=
  ⟨rfl, rfl, rfl⟩

/-- C5 amended: an ineligible join attempt is answered with the subscription
prompt and changes nothing, and the confirmation callback merely re-checks the
subscription — success shows the main menu, failure re-prompts — without ever
resolving a competition join. -/
theorem ineligible_join_blocked (comps : Comps) (uid comp_id : String) (dmOk : Bool) :
    join_callback false comps uid comp_id dmOk = (comps, .subscribePrompt) ∧
    check_sub_callback true = .subConfirmedMenu ∧
    check_sub_callback false = .subRetryPrompt :=
  ⟨rfl, rfl, rfl⟩

/-- Appending a not-yet-present participant to one competition keeps every
participant list duplicate-free. -/
theorem nodupIds_setA_append (comps : Comps) (cid : String) (c : Comp) (uid com : String)
    (h : NodupIds comps) (hc : lookupA comps cid = some c)
    (hu : c.participants.any (fun p => p.id = uid) = false) :
    NodupIds (setA comps cid { c with participants := c.participants ++ [⟨uid, com⟩] }) := by
  intro id c' h'
  by_cases hid : cid = id
  · subst hid
    rw [lookupA_setA_self] at h'
    cases h'
    have hn := h cid c hc
    have hmem : uid ∉ c.participants.map Participant.id := by
      intro hin
      obtain ⟨p, hp, hpe⟩ := List.mem_map.mp hin
      have h2 := List.any_eq_false.mp hu p hp
      simp [hpe] at h2
    simp [List.nodup_append, hn, hmem]
  · rw [lookupA_setA_other _ _ _ _ hid] at h'
    exact h id c' h'

/-- One join operation preserves duplicate-freedom of every participant
list. -/
theorem applyJoinOp_nodup (comps : Comps) (op : JoinOp) (h : NodupIds comps) :
    NodupIds (applyJoinOp comps op) := by
  cases op with
  | callback cid uid dmOk =>
    cases hc : lookupA comps cid with
    | none => simpa [applyJoinOp, join_competition, hc] using h
    | some c =>
      by_cases ha : c.participants.any (fun p => p.id = uid)
      · simpa [applyJoinOp, join_competition, hc, ha] using h
      · by_cases hd : dmOk
        · simpa [applyJoinOp, join_competition, hc, ha, hd] using h
        · have h2 := nodupIds_setA_append comps cid c uid "" h hc
            (Bool.not_eq_true _ ▸ ha)
          simpa [applyJoinOp, join_competition, hc, ha, hd] using h2
  | comment cid uid raw =>
    cases hc : lookupA comps cid with
    | none => simpa [applyJoinOp, save_comment_and_join, hc] using h
    | some c =>
      by_cases ha : c.participants.any (fun p => p.id = uid)
      · simpa [applyJoinOp, save_comment_and_join, hc, ha] using h
      · have h2 := nodupIds_setA_append comps cid c uid
          (if stripText raw = "-" then "" else stripText raw) h hc
          (Bool.not_eq_true _ ▸ ha)
        simpa [applyJoinOp, save_comment_and_join, hc, ha] using h2

/-- Any sequence of join operations preserves duplicate-freedom. -/
theorem applyJoinOps_nodup (ops : List JoinOp) (comps : Comps) (h : NodupIds comps) :
    NodupIds (applyJoinOps comps ops) := by
  induction ops generalizing comps with
  | nil => exact h
  | cons op rest ih => exact ih (applyJoinOp comps op) (applyJoinOp_nodup comps op h)

/-- C7: across any sequence of join operations (the only participant-list
mutations in the source; no evict operation exists), no competition's
participant list ever holds two entries with the same user id, and a join
attempt by a user already in the list is answered with the already-joined
message and leaves the store unchanged — on both join paths. -/
theorem join_no_duplicates (ops : List JoinOp) (comps : Comps) :
    (NodupIds comps → NodupIds (applyJoinOps comps ops)) ∧
    (∀ comp_id uid c dmOk raw, lookupA comps comp_id = some c →
      c.participants.any (fun p => p.id = uid) = true →
      join_competition comps uid comp_id dmOk = (comps, .alreadyJoined) ∧
      save_comment_and_join comps uid raw comp_id = (comps, .alreadyJoined)) := by
  constructor
  · exact applyJoinOps_nodup ops comps
  · intro comp_id uid c dmOk raw hc ha
    constructor
    · simp [join_competition, hc, ha]
    · simp [save_comment_and_join, hc, ha]

/-- Witness for `join_no_duplicates`: the participant "A" pressing join again
is told they already joined, and a join sequence on a duplicate-free store
keeps it duplicate-free. -/
theorem join_no_duplicates_witness :
    join_competition [("1", compDone)] "A" "1" true = ([("1", compDone)], .alreadyJoined) ∧
    NodupIds (applyJoinOps [("1", compDone)] [.comment "1" "B" "hi"]) := by
  have hnd : NodupIds [("1", compDone)] := by
    intro id c h
    simp only [lookupA] at h
    by_cases hid : ("1" : String) = id
    · rw [if_pos hid] at h
      cases h
      decide
    · rw [if_neg hid] at h
      cases h
  exact ⟨((join_no_duplicates [] [("1", compDone)]).2 "1" "A" compDone true "x" rfl rfl).1,
    (join_no_duplicates [.comment "1" "B" "hi"] [("1", compDone)]).1 hnd⟩

/-- C8: at the winner-count step of the creation wizard, an invalid input (a
non-positive or non-integer count) makes the handler send the re-prompt but
register no next step — the wizard is abandoned instead of staying in
`CollectingWinnerCount` —, whereas the image and deadline steps do re-register
themselves on invalid input. -/
theorem wizard_winner_count_abandons :
    (wizStep (fun _ => none) [] (.collectingWinnerCount "f" "" 0) (.text "0")).2
      = (none, [.badCount]) ∧
    (wizStep (fun _ => none) [] (.collectingWinnerCount "f" "" 0) (.text "abc")).2
      = (none, [.badCount]) ∧
    (wizStep (fun _ => none) [] (.collectingDeadline "f" "") (.text "oops")).2
      = (some (.collectingDeadline "f" ""), [.badDeadline]) ∧
    (wizStep (fun _ => none) [] .collectingImage (.text "hi")).2
      = (some .collectingImage, [.askImageAgain]) :=
  ⟨rfl, rfl, rfl, rfl⟩

end PubgBot
